import Mathlib

/-!
Shared memory buffer lifecycle (`src/native/sharedMemory.c`).

A shallow embedding of `create_shared_memory` and `clear_shared_memory`.

The two functions are written against four libc entry points: `malloc`, `free`,
`memset` and `perror`.  Those are modelled here by a small block-structured memory:

* a pointer is a block identifier (`Addr`), `0` being `NULL`;
* the heap is the list of live blocks, newest first;
* an allocator state carries the answers `malloc` is going to give, in order
  (`0` meaning that the request is refused), so that every allocator behaviour,
  failure injection included, is some value of `World`;
* every libc call that the program issues is appended to a trace;
* an operation that C leaves undefined (freeing a block that is not live, writing
  outside a block, reading an indeterminate value) yields `none`.

`size_t` values are natural numbers; the program performs no arithmetic on them.
-/

namespace SharedMem

/-- Pointers are block identifiers; `0` is the null pointer. -/
abbrev Addr := Nat

/-- The null pointer. -/
abbrev NULL : Addr := 0

/-- The C struct `SharedMemory`; a field that was never written is `none`. -/
structure SharedMemory where
  memory : Option Addr
  size : Option Nat
  deriving DecidableEq

/-- Contents of one live block: either a byte region (an indeterminate byte is `none`)
or a region accessed as a `SharedMemory` object. -/
inductive Block where
  | raw (bytes : List (Option Nat))
  | obj (s : SharedMemory)
  deriving DecidableEq

/-- Calls made to the C library, as they are observed from outside. -/
inductive Event where
  | malloc (size : Nat) (ret : Addr)
  | free (ptr : Addr)
  | perror (msg : String)
  deriving DecidableEq

/-- State of the C library as far as the program can tell. -/
structure World where
  heap : List (Addr × Block)
  oracle : List Addr
  trace : List Event
  deriving DecidableEq

/-- Value of `sizeof(SharedMemory)`: a pointer and a `size_t`, eight bytes each. -/
def sizeofSharedMemory : Nat := 16

/-- Block stored under identifier `a`, if `a` is live. -/
def lookup (a : Addr) : List (Addr × Block) → Option Block
  | [] => none
  | (k, b) :: rest => if k = a then some b else lookup a rest

/-- Removes block `a` from the live blocks. -/
def remove (a : Addr) : List (Addr × Block) → List (Addr × Block)
  | [] => []
  | (k, b) :: rest => if k = a then remove a rest else (k, b) :: remove a rest

/-- Replaces the contents of block `a`. -/
def update (a : Addr) (nb : Block) : List (Addr × Block) → List (Addr × Block)
  | [] => []
  | (k, b) :: rest => if k = a then (k, nb) :: update a nb rest else (k, b) :: update a nb rest

/-- Appends an event to the trace. -/
def World.log (w : World) (e : Event) : World :=
  { w with trace := w.trace ++ [e] }

/-- The libc call `malloc(n)`.  The next oracle answer is consumed.  A correct allocator
returns either `NULL` or a block that is not live, so an answer naming a live block is
read as a refusal; a granted block holds `n` indeterminate bytes. -/
def malloc (n : Nat) (w : World) : Addr × World :=
  match w.oracle with
  | [] => (NULL, w.log (Event.malloc n NULL))
  | a :: rest =>
    if a = NULL ∨ (lookup a w.heap).isSome then
      (NULL, { w with oracle := rest, trace := w.trace ++ [Event.malloc n NULL] })
    else
      (a, { heap := (a, Block.raw (List.replicate n none)) :: w.heap,
            oracle := rest,
            trace := w.trace ++ [Event.malloc n a] })

/-- The libc call `free(p)`: no action on `NULL`, undefined on a block that is not live. -/
def free (p : Addr) (w : World) : Option World :=
  if p = NULL then some (w.log (Event.free p))
  else
    match lookup p w.heap with
    | none => none
    | some _ => some { w with heap := remove p w.heap, trace := w.trace ++ [Event.free p] }

/-- The libc call `perror(msg)`: one diagnostic on the error stream. -/
def perror (msg : String) (w : World) : World :=
  w.log (Event.perror msg)

/-- The libc call `memset(p, c, n)`: the first `n` bytes of block `p` become `c`. -/
def memset (p : Addr) (c : Nat) (n : Nat) (w : World) : Option World :=
  match lookup p w.heap with
  | some (Block.raw bs) =>
    if n ≤ bs.length then
      let filled := Block.raw (List.replicate n (some (c % 256)) ++ bs.drop n)
      some { w with heap := update p filled w.heap }
    else none
  | _ => none

/-- The lvalue access through `(SharedMemory *)p`: a byte region that is large enough
is an object with indeterminate fields. -/
def asSharedMemory (p : Addr) (w : World) : Option SharedMemory :=
  match lookup p w.heap with
  | some (Block.obj s) => some s
  | some (Block.raw bs) => if sizeofSharedMemory ≤ bs.length then some ⟨none, none⟩ else none
  | none => none

/-- The assignment `buffer->memory = v`. -/
def store_memory (buffer : Addr) (v : Addr) (w : World) : Option World :=
  match asSharedMemory buffer w with
  | none => none
  | some s => some { w with heap := update buffer (Block.obj { s with memory := some v }) w.heap }

/-- The assignment `buffer->size = v`. -/
def store_size (buffer : Addr) (v : Nat) (w : World) : Option World :=
  match asSharedMemory buffer w with
  | none => none
  | some s => some { w with heap := update buffer (Block.obj { s with size := some v }) w.heap }

/-- The rvalue `buffer->memory`. -/
def load_memory (buffer : Addr) (w : World) : Option Addr :=
  match asSharedMemory buffer w with
  | none => none
  | some s => s.memory

/-- The rvalue `buffer->size`. -/
def load_size (buffer : Addr) (w : World) : Option Nat :=
  match asSharedMemory buffer w with
  | none => none
  | some s => s.size

/-- Byte `i` of block `p`, when it is a determinate byte of a live byte region. -/
def readByte (p : Addr) (i : Nat) (w : World) : Option Nat :=
  match lookup p w.heap with
  | some (Block.raw bs) => (bs.get? i).join
  | _ => none

/-- Length in bytes of the byte region `p`. -/
def regionLength (p : Addr) (w : World) : Option Nat :=
  match lookup p w.heap with
  | some (Block.raw bs) => some bs.length
  | _ => none

/-- The function `create_shared_memory` of `sharedMemory.c`, lines 10 to 27. -/
def create_shared_memory (size : Nat) (w : World) : Option (Addr × World) :=
  let r1 := malloc sizeofSharedMemory w
  let buffer := r1.1
  if buffer = NULL then
    some (NULL, perror "Failed to allocate SharedMemory" r1.2)
  else
    let r2 := malloc size r1.2
    match store_memory buffer r2.1 r2.2 with
    | none => none
    | some w3 =>
      match load_memory buffer w3 with
      | none => none
      | some m =>
        if m = NULL then
          match free buffer w3 with
          | none => none
          | some w4 => some (NULL, perror "Failed to allocate memory buffer" w4)
        else
          match store_size buffer size w3 with
          | none => none
          | some w5 =>
            match load_memory buffer w5 with
            | none => none
            | some m5 =>
              match memset m5 0 size w5 with
              | none => none
              | some w6 => some (buffer, w6)

/-- The function `clear_shared_memory` of `sharedMemory.c`, lines 29 to 36. -/
def clear_shared_memory (buffer : Addr) (w : World) : Option World :=
  if buffer ≠ NULL then
    match load_memory buffer w with
    | none => none
    | some m =>
      if m ≠ NULL then
        match free m w with
        | none => none
        | some w1 => free buffer w1
      else
        free buffer w
  else
    some w

/-- The diagnostics found in a trace, oldest first. -/
def diagnostics : List Event → List String
  | [] => []
  | Event.perror msg :: rest => msg :: diagnostics rest
  | _ :: rest => diagnostics rest

/-- The allocation requests found in a trace, oldest first. -/
def requests : List Event → List Nat
  | [] => []
  | Event.malloc n _ :: rest => n :: requests rest
  | _ :: rest => requests rest

/-- The pointers passed to `free` in a trace, oldest first. -/
def frees : List Event → List Addr
  | [] => []
  | Event.free p :: rest => p :: frees rest
  | _ :: rest => frees rest

/-- A world with three live blocks and an allocator that grants two requests. -/
def sampleWorld : World :=
  { heap := [(7, Block.raw [some 1, none]), (3, Block.obj ⟨some 7, some 2⟩),
             (9, Block.obj ⟨some 0, some 0⟩)],
    oracle := [4, 5],
    trace := [] }

/-- The world reached from `sampleWorld` by a successful creation of three bytes. -/
def sampleCreated : World :=
  { heap := [(5, Block.raw [some 0, some 0, some 0]), (4, Block.obj ⟨some 5, some 3⟩),
             (7, Block.raw [some 1, none]), (3, Block.obj ⟨some 7, some 2⟩),
             (9, Block.obj ⟨some 0, some 0⟩)],
    oracle := [],
    trace := [Event.malloc sizeofSharedMemory 4, Event.malloc 3 5] }

/-- A world whose allocator refuses the first request. -/
def refusingWorld : World :=
  { heap := [(7, Block.raw [some 1, none])], oracle := [0, 5], trace := [] }

/-- A world whose allocator grants the first request and refuses the second. -/
def halfWorld : World :=
  { heap := [(7, Block.raw [some 1, none])], oracle := [4, 0], trace := [] }

/-! ## The memory model -/

theorem remove_of_lookup_none (a : Addr) (h : List (Addr × Block))
    (hn : lookup a h = none) : remove a h = h := by
  induction h with
  | nil => rfl
  | cons x rest ih =>
    obtain ⟨k, b⟩ := x
    by_cases hk : k = a
    · simp [lookup, hk] at hn
    · simp only [lookup, hk, if_false] at hn
      simp [remove, hk, ih hn]

theorem update_of_lookup_none (a : Addr) (nb : Block) (h : List (Addr × Block))
    (hn : lookup a h = none) : update a nb h = h := by
  induction h with
  | nil => rfl
  | cons x rest ih =>
    obtain ⟨k, b⟩ := x
    by_cases hk : k = a
    · simp [lookup, hk] at hn
    · simp only [lookup, hk, if_false] at hn
      simp [update, hk, ih hn]

theorem lookup_remove (a p : Addr) (h : List (Addr × Block)) :
    lookup a (remove p h) = if a = p then none else lookup a h := by
  induction h with
  | nil => simp [remove, lookup]
  | cons x rest ih =>
    obtain ⟨k, b⟩ := x
    by_cases hk : k = p
    · by_cases ha : a = p
      · subst ha
        simpa [remove, hk] using ih
      · have hpa : ¬ p = a := fun e => ha e.symm
        simp [remove, lookup, hk, ih, ha, hpa]
    · by_cases ha : a = p
      · subst ha
        simp [remove, lookup, hk, ih]
      · simp [remove, lookup, hk, ih, ha]

theorem malloc_trace (n : Nat) (w : World) :
    (malloc n w).2.trace = w.trace ++ [Event.malloc n (malloc n w).1] := by
  unfold malloc
  split
  · rfl
  · split <;> rfl

theorem malloc_fail (n : Nat) (w : World) (hf : (malloc n w).1 = NULL) :
    (malloc n w).2.heap = w.heap := by
  unfold malloc at hf ⊢
  split
  · rfl
  · rename_i a rest ho
    simp only [ho] at hf
    split
    · rfl
    · rename_i hc
      simp only [hc, if_false] at hf
      exact absurd hf (fun e => hc (Or.inl e))

theorem malloc_ok (n : Nat) (w : World) (hs : (malloc n w).1 ≠ NULL) :
    lookup (malloc n w).1 w.heap = none ∧
    (malloc n w).2.heap = ((malloc n w).1, Block.raw (List.replicate n none)) :: w.heap := by
  unfold malloc at hs ⊢
  split
  · rename_i ho
    simp [ho] at hs
  · rename_i a rest ho
    simp only [ho] at hs
    split
    · rename_i hc
      simp [hc] at hs
    · rename_i hc
      refine ⟨?_, rfl⟩
      cases hl : lookup a w.heap with
      | none => rfl
      | some b => exact absurd (Or.inr (by simp [hl])) hc

/-! ## The three outcomes of `create_shared_memory` -/

theorem create_refused_first (n : Nat) (w : World)
    (h1 : (malloc sizeofSharedMemory w).1 = NULL) :
    create_shared_memory n w =
      some (NULL, perror "Failed to allocate SharedMemory" (malloc sizeofSharedMemory w).2) := by
  simp [create_shared_memory, h1]

theorem create_refused_second (n : Nat) (w : World)
    (h1 : (malloc sizeofSharedMemory w).1 ≠ NULL)
    (h2 : (malloc n (malloc sizeofSharedMemory w).2).1 = NULL) :
    create_shared_memory n w =
      some (NULL,
        { heap := w.heap,
          oracle := (malloc n (malloc sizeofSharedMemory w).2).2.oracle,
          trace := w.trace ++
            [Event.malloc sizeofSharedMemory (malloc sizeofSharedMemory w).1,
             Event.malloc n NULL,
             Event.free (malloc sizeofSharedMemory w).1,
             Event.perror "Failed to allocate memory buffer"] }) := by
  obtain ⟨hl, hh⟩ := malloc_ok _ _ h1
  have ht1 := malloc_trace sizeofSharedMemory w
  have hh2 := malloc_fail _ _ h2
  have ht2 := malloc_trace n (malloc sizeofSharedMemory w).2
  unfold create_shared_memory
  dsimp only
  generalize malloc sizeofSharedMemory w = r1 at *
  obtain ⟨d, heap1, o1, t1⟩ := r1
  dsimp only at *
  generalize malloc n _ = r2 at *
  obtain ⟨m, heap2, o2, t2⟩ := r2
  simp only at h1 h2 hl hh ht1 hh2 ht2
  subst h2 hh hh2 ht1 ht2
  have hd : ¬ d = 0 := h1
  simp [store_memory, load_memory, asSharedMemory, lookup, update, free, remove, perror,
    World.log, sizeofSharedMemory, hd, update_of_lookup_none _ _ _ hl,
    remove_of_lookup_none _ _ hl]

theorem create_granted (n : Nat) (w : World)
    (h1 : (malloc sizeofSharedMemory w).1 ≠ NULL)
    (h2 : (malloc n (malloc sizeofSharedMemory w).2).1 ≠ NULL) :
    create_shared_memory n w =
      some ((malloc sizeofSharedMemory w).1,
        { heap :=
            ((malloc n (malloc sizeofSharedMemory w).2).1,
              Block.raw (List.replicate n (some 0))) ::
            ((malloc sizeofSharedMemory w).1,
              Block.obj ⟨some (malloc n (malloc sizeofSharedMemory w).2).1, some n⟩) ::
            w.heap,
          oracle := (malloc n (malloc sizeofSharedMemory w).2).2.oracle,
          trace := w.trace ++
            [Event.malloc sizeofSharedMemory (malloc sizeofSharedMemory w).1,
             Event.malloc n (malloc n (malloc sizeofSharedMemory w).2).1] }) := by
  obtain ⟨hl, hh⟩ := malloc_ok _ _ h1
  have ht1 := malloc_trace sizeofSharedMemory w
  obtain ⟨hl2, hh2⟩ := malloc_ok _ _ h2
  have ht2 := malloc_trace n (malloc sizeofSharedMemory w).2
  unfold create_shared_memory
  dsimp only
  generalize malloc sizeofSharedMemory w = r1 at *
  obtain ⟨d, heap1, o1, t1⟩ := r1
  dsimp only at *
  generalize malloc n _ = r2 at *
  obtain ⟨m, heap2, o2, t2⟩ := r2
  simp only at h1 h2 hl hh ht1 hl2 hh2 ht2
  subst hh hh2 ht1 ht2
  have hd : ¬ d = 0 := h1
  have hm : ¬ m = 0 := h2
  have hdm : ¬ d = m := by
    intro e
    subst e
    simp [lookup] at hl2
  have hmd : ¬ m = d := fun e => hdm e.symm
  have hlm : lookup m w.heap = none := by
    simpa [lookup, hdm] using hl2
  simp [store_memory, store_size, load_memory, asSharedMemory, memset, lookup, update,
    sizeofSharedMemory, hd, hm, hdm, hmd, update_of_lookup_none _ _ _ hl,
    update_of_lookup_none _ _ _ hlm]

/-! ## The outcomes of `clear_shared_memory` -/

theorem load_memory_lookup (d m : Addr) (w : World) (h : load_memory d w = some m) :
    ∃ s, lookup d w.heap = some (Block.obj ⟨some m, s⟩) := by
  unfold load_memory asSharedMemory at h
  cases hl : lookup d w.heap with
  | none => simp [hl] at h
  | some b =>
    cases b with
    | raw bs =>
      by_cases hb : sizeofSharedMemory ≤ bs.length <;> simp [hl, hb] at h
    | obj s =>
      obtain ⟨mm, ss⟩ := s
      simp [hl] at h
      exact ⟨ss, by rw [h]⟩

theorem clear_without_region (d : Addr) (w : World) (hd : d ≠ NULL)
    (hm : load_memory d w = some NULL) :
    clear_shared_memory d w =
      some { w with heap := remove d w.heap, trace := w.trace ++ [Event.free d] } := by
  obtain ⟨s, hl⟩ := load_memory_lookup d NULL w hm
  have hd0 : ¬ d = 0 := hd
  simp [clear_shared_memory, hm, free, hl, hd0]

theorem clear_with_region (d m : Addr) (w : World) (hd : d ≠ NULL)
    (hm : load_memory d w = some m) (hm0 : m ≠ NULL) (hmd : m ≠ d)
    (hlive : (lookup m w.heap).isSome) :
    clear_shared_memory d w =
      some { w with heap := remove d (remove m w.heap),
                    trace := w.trace ++ [Event.free m, Event.free d] } := by
  obtain ⟨s, hl⟩ := load_memory_lookup d m w hm
  have hd0 : ¬ d = 0 := hd
  have hm0c : ¬ m = 0 := hm0
  have hdm : ¬ d = m := fun e => hmd e.symm
  obtain ⟨b, hb⟩ := Option.isSome_iff_exists.mp hlive
  simp [clear_shared_memory, hm, free, hl, hb, hd0, hm0c, hdm, lookup_remove]

/-! ## Reading traces -/

theorem diagnostics_append (s t : List Event) :
    diagnostics (s ++ t) = diagnostics s ++ diagnostics t := by
  induction s with
  | nil => rfl
  | cons e rest ih => cases e <;> simp [diagnostics, ih]

theorem requests_append (s t : List Event) :
    requests (s ++ t) = requests s ++ requests t := by
  induction s with
  | nil => rfl
  | cons e rest ih => cases e <;> simp [requests, ih]

theorem frees_append (s t : List Event) :
    frees (s ++ t) = frees s ++ frees t := by
  induction s with
  | nil => rfl
  | cons e rest ih => cases e <;> simp [frees, ih]

theorem malloc_oracle (n : Nat) (w : World) :
    (malloc n w).2.oracle = w.oracle.drop 1 := by
  unfold malloc
  split
  · rename_i ho
    simp [World.log, ho]
  · rename_i a rest ho
    split <;> simp [ho]

theorem create_success_shape (n : Nat) (w : World) (d : Addr) (w1 : World)
    (h : create_shared_memory n w = some (d, w1)) (hd : d ≠ NULL) :
    ∃ m, m ≠ NULL ∧ m ≠ d ∧ lookup d w.heap = none ∧ lookup m w.heap = none ∧
      w1.heap = (m, Block.raw (List.replicate n (some 0))) ::
        (d, Block.obj ⟨some m, some n⟩) :: w.heap ∧
      w1.trace = w.trace ++ [Event.malloc sizeofSharedMemory d, Event.malloc n m] := by
  by_cases h1 : (malloc sizeofSharedMemory w).1 = NULL
  · rw [create_refused_first n w h1] at h
    simp only [Option.some.injEq, Prod.mk.injEq] at h
    exact absurd h.1.symm hd
  · by_cases h2 : (malloc n (malloc sizeofSharedMemory w).2).1 = NULL
    · rw [create_refused_second n w h1 h2] at h
      simp only [Option.some.injEq, Prod.mk.injEq] at h
      exact absurd h.1.symm hd
    · obtain ⟨hl2, -⟩ := malloc_ok _ _ h2
      obtain ⟨hl, hh⟩ := malloc_ok _ _ h1
      rw [hh] at hl2
      rw [create_granted n w h1 h2] at h
      simp only [Option.some.injEq, Prod.mk.injEq] at h
      obtain ⟨hd1, hw⟩ := h
      subst hw
      generalize (malloc n (malloc sizeofSharedMemory w).2).1 = m at *
      subst hd1
      generalize (malloc sizeofSharedMemory w).1 = d at *
      have hmd : ¬ m = d := by
        intro e
        subst e
        simp [lookup] at hl2
      have hdm : ¬ d = m := fun e => hmd e.symm
      refine ⟨m, h2, hmd, hl, ?_, rfl, rfl⟩
      simpa [lookup, hdm] using hl2

/-! ## Creation -/

/-- C1: when the allocator grants both the descriptor request and the request for `n`
bytes, `create_shared_memory n` returns a non-null descriptor whose data pointer names a
region in which byte `i` is zero for every `i < n`. -/
theorem create_zero_filled (n : Nat) (w : World)
    (h1 : (malloc sizeofSharedMemory w).1 ≠ NULL)
    (h2 : (malloc n (malloc sizeofSharedMemory w).2).1 ≠ NULL) :
    ∃ d w1 m, create_shared_memory n w = some (d, w1) ∧ d ≠ NULL ∧
      load_memory d w1 = some m ∧ m ≠ NULL ∧
      ∀ i, i < n → readByte m i w1 = some 0 := by
  obtain ⟨hl, -⟩ := malloc_ok _ _ h1
  obtain ⟨hl2, hh2⟩ := malloc_ok _ _ h2
  refine ⟨_, _, (malloc n (malloc sizeofSharedMemory w).2).1,
    create_granted n w h1 h2, h1, ?_, h2, ?_⟩
  · rw [(malloc_ok _ _ h1).2] at hl2
    generalize (malloc n (malloc sizeofSharedMemory w).2).1 = m at *
    generalize (malloc sizeofSharedMemory w).1 = d at *
    have hmd : ¬ m = d := by
      intro e
      subst e
      simp [lookup] at hl2
    simp [load_memory, asSharedMemory, lookup, hmd]
  · intro i hi
    simp [readByte, lookup, List.getElem?_replicate, hi]

/-- Witness for C1: an allocator that grants blocks 4 and 5. -/
theorem create_zero_filled_witness :
    (malloc sizeofSharedMemory sampleWorld).1 ≠ NULL ∧
    (malloc 3 (malloc sizeofSharedMemory sampleWorld).2).1 ≠ NULL ∧
    ∃ d w1 m, create_shared_memory 3 sampleWorld = some (d, w1) ∧ d ≠ NULL ∧
      load_memory d w1 = some m ∧ m ≠ NULL ∧
      ∀ i, i < 3 → readByte m i w1 = some 0 :=
  ⟨by decide, by decide, create_zero_filled 3 sampleWorld (by decide) (by decide)⟩

/-- C2: whenever `create_shared_memory n` returns a non-null descriptor, its `size`
field holds exactly `n` and its data pointer names a byte region of length `n`. -/
theorem create_size_exact (n : Nat) (w : World) (d : Addr) (w1 : World)
    (h : create_shared_memory n w = some (d, w1)) (hd : d ≠ NULL) :
    load_size d w1 = some n ∧
    ∃ m, load_memory d w1 = some m ∧ regionLength m w1 = some n := by
  by_cases h1 : (malloc sizeofSharedMemory w).1 = NULL
  · rw [create_refused_first n w h1] at h
    simp only [Option.some.injEq, Prod.mk.injEq] at h
    exact absurd h.1.symm hd
  · by_cases h2 : (malloc n (malloc sizeofSharedMemory w).2).1 = NULL
    · rw [create_refused_second n w h1 h2] at h
      simp only [Option.some.injEq, Prod.mk.injEq] at h
      exact absurd h.1.symm hd
    · obtain ⟨hl2, -⟩ := malloc_ok _ _ h2
      rw [(malloc_ok _ _ h1).2] at hl2
      rw [create_granted n w h1 h2] at h
      simp only [Option.some.injEq, Prod.mk.injEq] at h
      obtain ⟨hd1, hw⟩ := h
      subst hw
      generalize (malloc n (malloc sizeofSharedMemory w).2).1 = m at *
      subst hd1
      generalize (malloc sizeofSharedMemory w).1 = d at *
      have hmd : ¬ m = d := by
        intro e
        subst e
        simp [lookup] at hl2
      refine ⟨?_, m, ?_, ?_⟩
      · simp [load_size, asSharedMemory, lookup, hmd]
      · simp [load_memory, asSharedMemory, lookup, hmd]
      · simp [regionLength, lookup]

/-- Witness for C2: the descriptor at block 4 created for three bytes. -/
theorem create_size_exact_witness :
    create_shared_memory 3 sampleWorld = some (4, sampleCreated) ∧ (4 : Addr) ≠ NULL ∧
      load_size 4 sampleCreated = some 3 ∧
      ∃ m, load_memory 4 sampleCreated = some m ∧ regionLength m sampleCreated = some 3 :=
  ⟨by decide, by decide,
    create_size_exact 3 sampleWorld 4 sampleCreated (by decide) (by decide)⟩

/-- C3: for every size `n` and every allocator state, `create_shared_memory n` returns,
and what it returns is null exactly when `malloc` refuses the descriptor or refuses the
`n` bytes; nothing else, the value of `n` included, leads to a null result. -/
theorem create_null_iff (n : Nat) (w : World) :
    ∃ d w1, create_shared_memory n w = some (d, w1) ∧
      (d = NULL ↔ (malloc sizeofSharedMemory w).1 = NULL ∨
        (malloc n (malloc sizeofSharedMemory w).2).1 = NULL) := by
  by_cases h1 : (malloc sizeofSharedMemory w).1 = NULL
  · exact ⟨_, _, create_refused_first n w h1, by simp [h1]⟩
  · by_cases h2 : (malloc n (malloc sizeofSharedMemory w).2).1 = NULL
    · exact ⟨_, _, create_refused_second n w h1 h2, by simp [h2]⟩
    · exact ⟨_, _, create_granted n w h1 h2, by simp [h1, h2]⟩

/-- C4: when the descriptor is granted and the `n` bytes are refused,
`create_shared_memory n` returns null, the live blocks are those of before the call, and
the one block it freed is the descriptor it had obtained. -/
theorem create_rollback (n : Nat) (w : World)
    (h1 : (malloc sizeofSharedMemory w).1 ≠ NULL)
    (h2 : (malloc n (malloc sizeofSharedMemory w).2).1 = NULL) :
    ∃ w1, create_shared_memory n w = some (NULL, w1) ∧ w1.heap = w.heap ∧
      frees w1.trace = frees w.trace ++ [(malloc sizeofSharedMemory w).1] := by
  refine ⟨_, create_refused_second n w h1 h2, rfl, ?_⟩
  simp [frees_append, frees]

/-- Witness for C4: an allocator that grants block 4 and then refuses. -/
theorem create_rollback_witness :
    (malloc sizeofSharedMemory halfWorld).1 ≠ NULL ∧
    (malloc 3 (malloc sizeofSharedMemory halfWorld).2).1 = NULL ∧
    ∃ w1, create_shared_memory 3 halfWorld = some (NULL, w1) ∧ w1.heap = halfWorld.heap ∧
      frees w1.trace = frees halfWorld.trace ++ [(malloc sizeofSharedMemory halfWorld).1] :=
  ⟨by decide, by decide, create_rollback 3 halfWorld (by decide) (by decide)⟩

/-- C5: when the descriptor is refused, `create_shared_memory n` returns null having
issued one allocation request, the one for the descriptor, followed by its diagnostic;
one allocator answer is consumed and the live blocks are unchanged. -/
theorem create_first_refusal (n : Nat) (w : World)
    (h1 : (malloc sizeofSharedMemory w).1 = NULL) :
    ∃ w1, create_shared_memory n w = some (NULL, w1) ∧
      w1.trace = w.trace ++
        [Event.malloc sizeofSharedMemory NULL, Event.perror "Failed to allocate SharedMemory"] ∧
      requests w1.trace = requests w.trace ++ [sizeofSharedMemory] ∧
      w1.oracle = w.oracle.drop 1 ∧
      w1.heap = w.heap := by
  have ht := malloc_trace sizeofSharedMemory w
  rw [h1] at ht
  have htr : (perror "Failed to allocate SharedMemory" (malloc sizeofSharedMemory w).2).trace
      = w.trace ++ [Event.malloc sizeofSharedMemory NULL,
          Event.perror "Failed to allocate SharedMemory"] := by
    simp [perror, World.log, ht]
  refine ⟨_, create_refused_first n w h1, htr, ?_, ?_, ?_⟩
  · rw [htr]
    simp [requests_append, requests]
  · simpa [perror, World.log] using malloc_oracle sizeofSharedMemory w
  · simpa [perror, World.log] using malloc_fail sizeofSharedMemory w h1

/-- Witness for C5: an allocator that refuses the first request. -/
theorem create_first_refusal_witness :
    (malloc sizeofSharedMemory refusingWorld).1 = NULL ∧
    ∃ w1, create_shared_memory 3 refusingWorld = some (NULL, w1) ∧
      w1.trace = refusingWorld.trace ++
        [Event.malloc sizeofSharedMemory NULL, Event.perror "Failed to allocate SharedMemory"] ∧
      requests w1.trace = requests refusingWorld.trace ++ [sizeofSharedMemory] ∧
      w1.oracle = refusingWorld.oracle.drop 1 ∧
      w1.heap = refusingWorld.heap :=
  ⟨by decide, create_first_refusal 3 refusingWorld (by decide)⟩

/-- C8: `create_shared_memory` always returns, and the diagnostics it adds to the error
stream are: the single message "Failed to allocate SharedMemory" when the descriptor is
refused, the single message "Failed to allocate memory buffer" when the descriptor is
granted and the data region refused, and none otherwise; the result is null exactly in
the two cases that emit a message. -/
theorem create_diagnostics (n : Nat) (w : World) :
    ∃ d w1, create_shared_memory n w = some (d, w1) ∧
      diagnostics w1.trace = diagnostics w.trace ++
        (if (malloc sizeofSharedMemory w).1 = NULL then ["Failed to allocate SharedMemory"]
         else if (malloc n (malloc sizeofSharedMemory w).2).1 = NULL then
           ["Failed to allocate memory buffer"]
         else []) ∧
      (d ≠ NULL ↔ diagnostics w1.trace = diagnostics w.trace) := by
  by_cases h1 : (malloc sizeofSharedMemory w).1 = NULL
  · have ht := malloc_trace sizeofSharedMemory w
    refine ⟨_, _, create_refused_first n w h1, ?_, ?_⟩ <;>
      simp [h1, perror, World.log, ht, diagnostics_append, diagnostics]
  · by_cases h2 : (malloc n (malloc sizeofSharedMemory w).2).1 = NULL
    · refine ⟨_, _, create_refused_second n w h1 h2, ?_, ?_⟩ <;>
        simp [h1, h2, diagnostics_append, diagnostics]
    · refine ⟨_, _, create_granted n w h1 h2, ?_, ?_⟩ <;>
        simp [h1, h2, diagnostics_append, diagnostics]

/-! ## Release -/

/-- C7: `clear_shared_memory NULL` returns and leaves the whole state as it was: live
blocks, allocator and trace, so that no `free` is issued. -/
theorem clear_null (w : World) : clear_shared_memory NULL w = some w := by
  simp [clear_shared_memory]

/-- C9: for a non-null descriptor `d` whose data pointer is `m`, `clear_shared_memory d`
returns; when `m` is a live region it issues `free m` and then `free d`, and when `m` is
null it issues `free d` alone. -/
theorem clear_order (w : World) (d m : Addr) (hd : d ≠ NULL)
    (hm : load_memory d w = some m)
    (hreg : m ≠ NULL → m ≠ d ∧ (lookup m w.heap).isSome) :
    ∃ w1, clear_shared_memory d w = some w1 ∧
      w1.trace = w.trace ++
        (if m = NULL then [Event.free d] else [Event.free m, Event.free d]) ∧
      w1.heap = (if m = NULL then remove d w.heap else remove d (remove m w.heap)) := by
  by_cases hm0 : m = NULL
  · subst hm0
    exact ⟨_, clear_without_region d w hd hm, by simp, by simp⟩
  · obtain ⟨hmd, hlive⟩ := hreg hm0
    exact ⟨_, clear_with_region d m w hd hm hm0 hmd hlive, by simp [hm0], by simp [hm0]⟩

/-- Witness for C9: descriptor 3 owns region 7, descriptor 9 owns no region. -/
theorem clear_order_witness :
    ((3 : Addr) ≠ NULL ∧ load_memory 3 sampleWorld = some 7 ∧
      ∃ w1, clear_shared_memory 3 sampleWorld = some w1 ∧
        w1.trace = sampleWorld.trace ++
          (if (7 : Addr) = NULL then [Event.free 3] else [Event.free 7, Event.free 3]) ∧
        w1.heap = (if (7 : Addr) = NULL then remove 3 sampleWorld.heap
          else remove 3 (remove 7 sampleWorld.heap))) ∧
    ((9 : Addr) ≠ NULL ∧ load_memory 9 sampleWorld = some 0 ∧
      ∃ w1, clear_shared_memory 9 sampleWorld = some w1 ∧
        w1.trace = sampleWorld.trace ++
          (if (0 : Addr) = NULL then [Event.free 9] else [Event.free 0, Event.free 9]) ∧
        w1.heap = (if (0 : Addr) = NULL then remove 9 sampleWorld.heap
          else remove 9 (remove 0 sampleWorld.heap))) :=
  ⟨⟨by decide, by decide,
      clear_order sampleWorld 3 7 (by decide) (by decide) (fun _ => by decide)⟩,
   ⟨by decide, by decide,
      clear_order sampleWorld 9 0 (by decide) (by decide) (fun h => absurd rfl h)⟩⟩

/-! ## Creation followed by release -/

/-- C6: after a successful `create_shared_memory n`, `clear_shared_memory` on the
returned descriptor returns, issues exactly two frees, first the data region and then
the descriptor, which are distinct blocks, and the live blocks (hence their number) are
those of before the creation. -/
theorem create_then_clear (n : Nat) (w : World) (d : Addr) (w1 : World)
    (h : create_shared_memory n w = some (d, w1)) (hd : d ≠ NULL) :
    ∃ m w2, load_memory d w1 = some m ∧ m ≠ NULL ∧ m ≠ d ∧
      clear_shared_memory d w1 = some w2 ∧
      w2.heap = w.heap ∧ w2.heap.length = w.heap.length ∧
      frees w2.trace = frees w1.trace ++ [m, d] := by
  obtain ⟨m, hm0, hmd, hld, hlm, hheap, -⟩ := create_success_shape n w d w1 h hd
  have hdm : ¬ d = m := fun e => hmd e.symm
  have hload : load_memory d w1 = some m := by
    simp [load_memory, asSharedMemory, hheap, lookup, hmd]
  have hlive : (lookup m w1.heap).isSome := by
    simp [hheap, lookup]
  have hheap2 : remove d (remove m w1.heap) = w.heap := by
    simp [hheap, remove, hdm, remove_of_lookup_none _ _ hlm, remove_of_lookup_none _ _ hld]
  refine ⟨m, _, hload, hm0, hmd, clear_with_region d m w1 hd hload hm0 hmd hlive,
    hheap2, by rw [hheap2], ?_⟩
  simp [frees_append, frees]

/-- Witness for C6: creation of three bytes in `sampleWorld`, then release. -/
theorem create_then_clear_witness :
    create_shared_memory 3 sampleWorld = some (4, sampleCreated) ∧ (4 : Addr) ≠ NULL ∧
    ∃ m w2, load_memory 4 sampleCreated = some m ∧ m ≠ NULL ∧ m ≠ 4 ∧
      clear_shared_memory 4 sampleCreated = some w2 ∧
      w2.heap = sampleWorld.heap ∧ w2.heap.length = sampleWorld.heap.length ∧
      frees w2.trace = frees sampleCreated.trace ++ [m, 4] :=
  ⟨by decide, by decide,
    create_then_clear 3 sampleWorld 4 sampleCreated (by decide) (by decide)⟩

/-! ## Frame -/

/-- C10: `clear_shared_memory d` returns and leaves every block other than `d` and the
data region of `d` as it was, live with the same contents or not live; a successful
`create_shared_memory` adds two live blocks, which were not live before, and leaves every
other block as it was. -/
theorem frame (n : Nat) (w : World) (d : Addr) :
    (∀ m, d ≠ NULL → load_memory d w = some m →
      (m ≠ NULL → m ≠ d ∧ (lookup m w.heap).isSome) →
      ∃ w1, clear_shared_memory d w = some w1 ∧
        ∀ a, a ≠ d → (m ≠ NULL → a ≠ m) → lookup a w1.heap = lookup a w.heap) ∧
    (∀ w1, create_shared_memory n w = some (d, w1) → d ≠ NULL →
      ∃ m, load_memory d w1 = some m ∧ m ≠ d ∧
        lookup d w.heap = none ∧ lookup m w.heap = none ∧
        (lookup d w1.heap).isSome ∧ (lookup m w1.heap).isSome ∧
        w1.heap.length = w.heap.length + 2 ∧
        ∀ a, a ≠ d → a ≠ m → lookup a w1.heap = lookup a w.heap) := by
  constructor
  · intro m hd hm hreg
    by_cases hm0 : m = NULL
    · subst hm0
      refine ⟨_, clear_without_region d w hd hm, ?_⟩
      intro a had _
      simp [lookup_remove, had]
    · obtain ⟨hmd, hlive⟩ := hreg hm0
      refine ⟨_, clear_with_region d m w hd hm hm0 hmd hlive, ?_⟩
      intro a had ham
      simp [lookup_remove, had, ham hm0]
  · intro w1 h hd
    obtain ⟨m, hm0, hmd, hld, hlm, hheap, -⟩ := create_success_shape n w d w1 h hd
    have hdm : ¬ d = m := fun e => hmd e.symm
    refine ⟨m, ?_, hmd, hld, hlm, ?_, ?_, ?_, ?_⟩
    · simp [load_memory, asSharedMemory, hheap, lookup, hmd]
    · simp [hheap, lookup, hmd]
    · simp [hheap, lookup]
    · simp [hheap]
    · intro a had ham
      have h1 : ¬ m = a := fun e => ham e.symm
      have h2 : ¬ d = a := fun e => had e.symm
      simp [hheap, lookup, h1, h2]

/-- Witness for C10: releasing descriptor 3 of `sampleWorld` leaves block 9 alone, and
creating three bytes in `sampleWorld` leaves block 7 alone. -/
theorem frame_witness :
    (∃ w1, clear_shared_memory 3 sampleWorld = some w1 ∧
      lookup 9 w1.heap = lookup 9 sampleWorld.heap) ∧
    (∃ m, load_memory 4 sampleCreated = some m ∧ m ≠ 4 ∧
      sampleCreated.heap.length = sampleWorld.heap.length + 2 ∧
      lookup 7 sampleCreated.heap = lookup 7 sampleWorld.heap) := by
  constructor
  · obtain ⟨w1, hc, hf⟩ := (frame 0 sampleWorld 3).1 7 (by decide) (by decide)
      (fun _ => by decide)
    exact ⟨w1, hc, hf 9 (by decide) (fun _ => by decide)⟩
  · have hcreate : create_shared_memory 3 sampleWorld = some (4, sampleCreated) := by decide
    obtain ⟨m, hl, hmd, -, -, -, -, hlen, hf⟩ :=
      (frame 3 sampleWorld 4).2 sampleCreated hcreate (by decide)
    have hm : m = 5 := by
      have h5 : load_memory 4 sampleCreated = some 5 := by decide
      rw [h5] at hl
      exact (Option.some.inj hl).symm
    subst hm
    exact ⟨5, hl, hmd, hlen, hf 7 (by decide) (by decide)⟩

end SharedMem
